import Mathlib

/-!
Verification development for the OpSentra log platform (shipper and
aggregator).  The definitions below are shallow embeddings of the
JavaScript sources: the phase-2 shipper (`index.js`, exporting
`parseLogLine`, `deriveServiceFromPath`, `publishLogEntry`, …), the
phase-1 shipper class (`OpSentraLogShipper`, with
`extractServiceFromPath`, `extractLogLevel`, `addToBuffer`), and the
phase-3 aggregator (`connectRabbitMQ`, `startConsumers`,
`insertToMongo`, `updateLogWithAI`, `batchProcessToS3`,
`broadcastToSSE`, the `/api/logs` handler).  Strings are `String`,
machine time is an `Int` count of milliseconds, and fallible external
calls are passed in as explicit outcome parameters.
-/

namespace OpSentra

/-- Test `lMatchPre pat txt`: true when `txt` begins with `pat` (character lists). -/
def lMatchPre : List Char → List Char → Bool
  | [], _ => true
  | _ :: _, [] => false
  | p :: ps, t :: ts => p == t && lMatchPre ps ts

/-- Test `lHasSub pat txt`: true when `pat` occurs contiguously inside `txt`. -/
def lHasSub (pat : List Char) : List Char → Bool
  | [] => lMatchPre pat []
  | t :: ts => lMatchPre pat (t :: ts) || lHasSub pat ts

/-- JavaScript `s.includes(pat)` on strings. -/
def strContains (s pat : String) : Bool := lHasSub pat.data s.data

/-- Split a character list at every occurrence of a separator character,
keeping empty pieces, as JavaScript `split` with a one-character
separator. -/
def splitOnCharAux (sep : Char) : List Char → List Char → List (List Char)
  | [], acc => [acc.reverse]
  | c :: cs, acc =>
    if c == sep then acc.reverse :: splitOnCharAux sep cs []
    else splitOnCharAux sep cs (c :: acc)

/-- JavaScript `l.split(sep)` for a one-character separator. -/
def splitOnChar (sep : Char) (l : List Char) : List (List Char) := splitOnCharAux sep l []

/-- ASCII whitespace, the characters JavaScript `trim` removes from the
inputs exercised here. -/
def isSpaceChar (c : Char) : Bool := c == ' ' || c == '\t' || c == '\n' || c == '\r'

/-- JavaScript `trim` on a character list. -/
def trimL (l : List Char) : List Char :=
  ((l.dropWhile isSpaceChar).reverse.dropWhile isSpaceChar).reverse

/-- JavaScript `s.trim()`. -/
def strTrim (s : String) : String := ⟨trimL s.data⟩

/-- JavaScript `s.toLowerCase()` for the ASCII inputs exercised here. -/
def lowerStr (s : String) : String := ⟨s.data.map Char.toLower⟩

/-- Last `/`-separated segment of a path, as JavaScript `p.split('/')` last
element and Node `path.basename`. -/
def lastSegment (p : String) : String := ⟨(splitOnChar '/' p.data).getLastD p.data⟩

/-- Index of the last `.` in a character list, if any. -/
def lastDotIdx : List Char → Option Nat
  | [] => none
  | c :: cs =>
    match lastDotIdx cs with
    | some i => some (i + 1)
    | none => if c == '.' then some 0 else none

/-- Node `path.basename(p, path.extname(p))` applied to a basename: the
extension runs from the last `.`, except when that `.` is the first
character (Node `extname` returns the empty string there). -/
def stripExtNode (b : List Char) : List Char :=
  match lastDotIdx b with
  | some i => if i = 0 then b else b.take i
  | none => b

/-- The basename of `p` with its Node extension stripped, the `fileName`
of `extractServiceFromPath`. -/
def baseNameNoExt (p : String) : String := ⟨stripExtNode (lastSegment p).data⟩

/-- Function `extractServiceFromPath` of the phase-1 shipper: the well-known
service mapping is applied to the basename with the extension stripped,
and the basename itself is the fallback. -/
def extractServiceFromPath (filePath : String) : String :=
  let fileName := baseNameNoExt filePath
  if strContains fileName "nginx" then "nginx"
  else if strContains fileName "apache" then "apache"
  else if strContains fileName "mysql" then "mysql"
  else if strContains fileName "postgresql" then "postgresql"
  else if strContains fileName "redis" then "redis"
  else if strContains fileName "mongodb" then "mongodb"
  else fileName

/-- JavaScript `s.endsWith(t)` on strings. -/
def strEndsWith (s t : String) : Bool := lMatchPre t.data.reverse s.data.reverse

/-- JavaScript `fileName.replace(/\.(log|out)$/, '')`. -/
def stripLogOut (s : String) : String :=
  if strEndsWith s ".log" then ⟨s.data.take (s.data.length - 4)⟩
  else if strEndsWith s ".out" then ⟨s.data.take (s.data.length - 4)⟩
  else s

/-- Left-to-right scan for the phase-2 shipper regex `jobs\/([^\/]+)`:
the first position where `jobs/` is followed by at least one non-`/`
character yields that run as the capture. -/
def jenkinsJobScan : List Char → Option (List Char)
  | [] => none
  | c :: cs =>
    if lMatchPre ['j', 'o', 'b', 's', '/'] (c :: cs) then
      let cap := (cs.drop 4).takeWhile (fun x => !(x == '/'))
      if cap.isEmpty then jenkinsJobScan cs else some cap
    else jenkinsJobScan cs

/-- Function `deriveServiceFromPath` of the phase-2 shipper. -/
def deriveServiceFromPath (filePath : String) : String :=
  if strContains filePath "/var/lib/docker/containers/" then "docker"
  else if strContains filePath "/var/jenkins_home/" then
    match jenkinsJobScan filePath.data with
    | some j => "jenkins-" ++ ⟨j⟩
    | none => "jenkins"
  else if strContains filePath "/var/log/" then
    let serviceName := stripLogOut (lastSegment filePath)
    if serviceName = "" then "system" else serviceName
  else "unknown"

/-- The level alternation of the phase-2 shipper regexes:
`ERROR|WARN|INFO|DEBUG|TRACE|FATAL`, in source order, lowercased. -/
def levelsPhase2 : List String := ["error", "warn", "info", "debug", "trace", "fatal"]

/-- First bracketed level in a lowercased line: the earliest position
where `[` is followed by a level word and `]`, as the phase-2 regex
`\[(ERROR|WARN|INFO|DEBUG|TRACE|FATAL)\]/i`. -/
def scanBracket (levels : List String) : List Char → Option String
  | [] => none
  | c :: cs =>
    if c == '[' then
      match levels.find? (fun lvl => lMatchPre (lvl ++ "]").data cs) with
      | some lvl => some lvl
      | none => scanBracket levels cs
    else scanBracket levels cs

/-- First level word immediately followed by `:` in a lowercased line,
as the phase-2 regex `(ERROR|WARN|INFO|DEBUG|TRACE|FATAL):/i`. -/
def scanColon (levels : List String) : List Char → Option String
  | [] => none
  | c :: cs =>
    match levels.find? (fun lvl => lMatchPre (lvl ++ ":").data (c :: cs)) with
    | some lvl => some lvl
    | none => scanColon levels cs

/-- First occurrence of a bare level word in a lowercased suffix, the
lazy `.*?(LEVEL)` tail of the phase-2 date regex. -/
def scanLevelAny (levels : List String) : List Char → Option String
  | [] => none
  | c :: cs =>
    match levels.find? (fun lvl => lMatchPre lvl.data (c :: cs)) with
    | some lvl => some lvl
    | none => scanLevelAny levels cs

/-- Consume exactly `n` ASCII digits, returning the rest of the line. -/
def digitsN : Nat → List Char → Option (List Char)
  | 0, l => some l
  | _ + 1, [] => none
  | n + 1, c :: cs => if c.isDigit then digitsN n cs else none

/-- Consume one expected character. -/
def expectChar (c : Char) : List Char → Option (List Char)
  | [] => none
  | x :: xs => if x == c then some xs else none

/-- The anchored date prefix `^\d{4}-\d{2}-\d{2}` of the phase-2 regex,
returning the remainder of the line on success. -/
def dateRest (l : List Char) : Option (List Char) := do
  let l ← digitsN 4 l
  let l ← expectChar '-' l
  let l ← digitsN 2 l
  let l ← expectChar '-' l
  digitsN 2 l

/-- Level of a lowercased line per the three ordered matches of the
phase-2 shipper's `parseLogLine`: bracketed level, level-colon, or a
leading ISO-like date followed by a level; `info` otherwise. -/
def parseLogLevel2L (l : List Char) : String :=
  match scanBracket levelsPhase2 l with
  | some lvl => lvl
  | none =>
    match scanColon levelsPhase2 l with
    | some lvl => lvl
    | none =>
      match dateRest l with
      | some rest =>
        match scanLevelAny levelsPhase2 rest with
        | some lvl => lvl
        | none => "info"
      | none => "info"

/-- Level extraction of the phase-2 shipper applied to a raw line.  The
returned regex capture is lowercased by the source, hence the scan of
the lowercased line. -/
def parseLogLevel2 (line : String) : String := parseLogLevel2L (lowerStr line).data

/-- JavaScript `\w` word character. -/
def isWordChar (c : Char) : Bool := c.isAlphanum || c == '_'

/-- Boundary after a match: end of string or a non-word character. -/
def boundaryOk : List Char → Bool
  | [] => true
  | c :: _ => !isWordChar c

/-- Boundary before a match: start of string or a non-word character. -/
def prevBoundary : Option Char → Bool
  | none => true
  | some p => !isWordChar p

/-- Whole-word occurrence scan, the JavaScript `\bw\b` test for a word
`w` made of word characters. -/
def hasWordAux (w : List Char) (prev : Option Char) : List Char → Bool
  | [] => false
  | c :: cs =>
    (prevBoundary prev && lMatchPre w (c :: cs) && boundaryOk (List.drop w.length (c :: cs)))
    || hasWordAux w (some c) cs

/-- Regex `\bw\b` tested against `s`. -/
def hasWord (s w : String) : Bool := hasWordAux w.data none s.data

/-- The word heuristic of the phase-1 shipper's `extractLogLevel`,
applied to the lowercased message. -/
def extractLogLevelL (m : String) : String :=
  if hasWord m "error" || hasWord m "err" || hasWord m "fatal" || hasWord m "critical" then "error"
  else if hasWord m "warn" || hasWord m "warning" then "warn"
  else if hasWord m "info" || hasWord m "information" then "info"
  else if hasWord m "debug" || hasWord m "trace" then "debug"
  else "info"

/-- Function `extractLogLevel` of the phase-1 shipper: the word heuristic over
the lowercased message, with default `info`. -/
def extractLogLevel (message : String) : String := extractLogLevelL (lowerStr message)

/-- The extended level alternation named by the specification:
`error|warn|warning|info|debug|trace|fatal|critical`, in its written
order. -/
def levelsPerSpec : List String :=
  ["error", "warn", "warning", "info", "debug", "trace", "fatal", "critical"]

/-- Level extraction as the specification describes it (primary ordered
matches over the extended level set, then the word heuristic, then
`info`); stated from the spec's words to compare against the code. -/
def levelPerSpecC5 (line : String) : String :=
  let l := (lowerStr line).data
  match scanBracket levelsPerSpec l with
  | some lvl => lvl
  | none =>
    match scanColon levelsPerSpec l with
    | some lvl => lvl
    | none =>
      match dateRest l with
      | some rest =>
        match scanLevelAny levelsPerSpec rest with
        | some lvl => lvl
        | none => extractLogLevel line
      | none => extractLogLevel line

/-- The structured record built by the phase-2 shipper's `parseLogLine`:
timestamp, level, message, service, host, ip, source. -/
structure ShipLog where
  timestamp : String
  level : String
  message : String
  service : String
  host : String
  ip : String
  source : String
deriving DecidableEq, Repr

/-- Function `getInstanceIdentifier` of the phase-2 shipper, applied to the
outcome of one metadata call: the trimmed response body on success
(`fetchEC2Ip` resolves the 2-second-guarded HTTP GET), the hostname on
any failure.  The source performs a fresh call inside every
`parseLogLine` invocation; no result is cached. -/
def getInstanceIdentifier (resp : Option String) (hostname : String) : String :=
  match resp with
  | some body => strTrim body
  | none => hostname

/-- Function `parseLogLine` of the phase-2 shipper as a function of its line and
path together with the effects it reads: the current wall-clock ISO
string (`new Date().toISOString()`) and the hostname. -/
def parseLogLine (line filePath nowIso hostname instanceId : String) : ShipLog :=
  { timestamp := nowIso
    level := parseLogLevel2 line
    message := strTrim line
    service := deriveServiceFromPath filePath
    host := hostname
    ip := instanceId
    source := filePath }

/-- One record build, resolving the instance identity from this call's
metadata outcome `resp`, as the source does per line. -/
def buildRecord (line filePath nowIso hostname : String) (resp : Option String) : ShipLog :=
  parseLogLine line filePath nowIso hostname (getInstanceIdentifier resp hostname)

/-- AMQP topic-pattern matching on dot-separated word lists: `*` matches
exactly one word, `#` matches zero or more words; fuel-driven so the
kernel can evaluate it (the fuel `|pattern| + |key| + 1` always
suffices). -/
def topicMatchF : Nat → List String → List String → Bool
  | 0, _, _ => false
  | _ + 1, [], [] => true
  | _ + 1, [], _ :: _ => false
  | f + 1, "#" :: ps, [] => topicMatchF f ps []
  | f + 1, "#" :: ps, w :: ws => topicMatchF f ps (w :: ws) || topicMatchF f ("#" :: ps) ws
  | _ + 1, "*" :: _, [] => false
  | f + 1, "*" :: ps, _ :: ws => topicMatchF f ps ws
  | _ + 1, _ :: _, [] => false
  | f + 1, p :: ps, w :: ws => p == w && topicMatchF f ps ws

/-- AMQP topic-pattern matching on dotted strings. -/
def topicMatch (pattern key : String) : Bool :=
  let ps := (splitOnChar '.' pattern.data).map (fun w => (⟨w⟩ : String))
  let ws := (splitOnChar '.' key.data).map (fun w => (⟨w⟩ : String))
  topicMatchF (ps.length + ws.length + 1) ps ws

/-- The routing key built by `publishLogEntry`:
`logs.<service>.<ip>`. -/
def routingKeyFor (service ip : String) : String := "logs." ++ service ++ "." ++ ip

/-- The binding keys attached to the `raw-logs` queue by the class
aggregator's `initializeRabbitMQ`: exactly one `bindQueue` call with
pattern `logs.*`. -/
def rawLogsBindingKeys : List String := ["logs.*"]

/-- The binding keys attached to the `raw-logs` queue by the phase-3
aggregator's `connectRabbitMQ`: the function asserts the queues and
registers no binding at all. -/
def rawLogsBindingKeysPhase3 : List String := []

/-- A routed message reaches the queue when some binding pattern matches
its routing key. -/
def deliveredToRawLogs (bindings : List String) (routingKey : String) : Bool :=
  bindings.any (fun b => topicMatch b routingKey)

/-- One shipper-side event: a record handed to `publishLogEntry`, or a
broker connectivity change. -/
inductive ShipEvent where
  | produce (r : ShipLog)
  | reconnect
  | disconnect
deriving DecidableEq, Repr

/-- The connection state the phase-2 shipper keeps (`isConnected`)
together with the sequence of messages it has handed to the broker.
`publishLogEntry` returns `false` without storing the record anywhere
when disconnected, and `connectRabbitMQ` re-establishes the channel
without replaying anything, so this is the entire record-relevant
state. -/
structure ShipperState where
  connected : Bool
  delivered : List ShipLog
deriving DecidableEq, Repr

/-- One step of the phase-2 shipper: `publishLogEntry` publishes the
record when connected and otherwise drops it (its `false` return is
ignored by every caller); reconnect and disconnect toggle
`isConnected`. -/
def shipperStep (s : ShipperState) : ShipEvent → ShipperState
  | .produce r => if s.connected then { s with delivered := s.delivered ++ [r] } else s
  | .reconnect => { s with connected := true }
  | .disconnect => { s with connected := false }

/-- A run of the phase-2 shipper over a sequence of events. -/
def shipperRun (s : ShipperState) (es : List ShipEvent) : ShipperState :=
  es.foldl shipperStep s

/-- Function `addToBuffer` of the phase-1 shipper: an unconditional push onto
`logBuffer`; the source has no capacity check and discards nothing. -/
def addToBuffer (buf : List ShipLog) (r : ShipLog) : List ShipLog := buf ++ [r]

/-- A persisted aggregator record: the store-owned identifier, the
archival flag and stamp, the enrichment fields written by
`updateLogWithAI`, and the inserted payload. -/
structure AggRecord where
  id : Nat
  synced : Bool
  syncedAt : Option Int
  aiAnalysis : Option String
  suggestions : Option String
  confidence : Option Int
  payload : String
deriving DecidableEq, Repr

/-- The aggregator's `logs` collection with the store's id generator. -/
structure AggStore where
  nextId : Nat
  recs : List AggRecord
deriving DecidableEq, Repr

/-- Function `insertToMongo`: the insert passes `_id: undefined` so the store
assigns a fresh identifier, and sets `synced: false` on the new
record. -/
def insertToMongo (s : AggStore) (payload : String) : AggStore :=
  { nextId := s.nextId + 1
    recs := s.recs ++ [{ id := s.nextId, synced := false, syncedAt := none,
                         aiAnalysis := none, suggestions := none, confidence := none,
                         payload := payload }] }

/-- Function `updateLogWithAI`: `$set` of `aiAnalysis`, `suggestions`,
`confidence` (and `aiProcessedAt`) on the record matching `logId`;
no other field is written. -/
def updateLogWithAI (s : AggStore) (logId : Nat) (analysis suggestions : String)
    (confidence : Int) : AggStore :=
  { s with recs := s.recs.map fun r =>
      if r.id == logId then
        { r with aiAnalysis := some analysis, suggestions := some suggestions,
                 confidence := some confidence }
      else r }

/-- The mark step of `batchProcessToS3`: `updateMany` over the archived
identifiers with `$set: { synced: true, syncedAt: now }`. -/
def archiveMarkSynced (s : AggStore) (ids : List Nat) (now : Int) : AggStore :=
  { s with recs := s.recs.map fun r =>
      if ids.contains r.id then { r with synced := true, syncedAt := some now } else r }

/-- A store-writing aggregator operation. -/
inductive AggOp where
  | insert (payload : String)
  | enrich (logId : Nat) (analysis suggestions : String) (confidence : Int)
  | mark (ids : List Nat) (now : Int)
deriving Repr

/-- Dispatch of one aggregator store operation. -/
def applyAggOp (s : AggStore) : AggOp → AggStore
  | .insert payload => insertToMongo s payload
  | .enrich logId analysis suggestions confidence =>
      updateLogWithAI s logId analysis suggestions confidence
  | .mark ids now => archiveMarkSynced s ids now

/-- The `synced` flag of the record with identifier `i`, when present. -/
def syncedOf (s : AggStore) (i : Nat) : Option Bool :=
  (s.recs.find? (fun r => r.id == i)).map (fun r => r.synced)

/-- Archival record shape used by `batchProcessToS3`'s query: the
timestamp in milliseconds, the archival flag and stamp. -/
structure StoredLog where
  id : Nat
  timestamp : Int
  synced : Bool
  syncedAt : Option Int
deriving DecidableEq, Repr

/-- The lookback window of `batchProcessToS3`: `tenMinutesAgo = now −
10 * 60 * 1000`. -/
def archiveWindowMs : Int := 10 * 60 * 1000

/-- The cron cadence of the aggregator's batch job: every 10 minutes. -/
def archiveIntervalMs : Int := 10 * 60 * 1000

/-- The `$match` stage of `batchProcessToS3`: `synced: false` and
`timestamp: { $gt: tenMinutesAgo }`. -/
def selectedForArchive (now : Int) (r : StoredLog) : Bool :=
  !r.synced && decide (now - archiveWindowMs < r.timestamp)

/-- The aggregation pipeline of `batchProcessToS3`: the `$match` stage
followed by `$limit: 10000`. -/
def archiveBatch (now : Int) (store : List StoredLog) : List StoredLog :=
  (store.filter (selectedForArchive now)).take 10000

/-- One archival tick at wall-clock `now`: on success the selected
identifiers are marked `synced: true`, `syncedAt: now`. -/
def archiveTick (now : Int) (store : List StoredLog) : List StoredLog :=
  let ids := (archiveBatch now store).map (fun r => r.id)
  store.map fun r =>
    if ids.contains r.id then { r with synced := true, syncedAt := some now } else r

/-- Run of `k` archival ticks at times `start, start + interval, …`, the cron
cadence of the aggregator. -/
def archiveRun (start intervalMs : Int) (store : List StoredLog) : Nat → List StoredLog
  | 0 => store
  | n + 1 => archiveTick (start + intervalMs * n) (archiveRun start intervalMs store n)

/-- Broker action taken by a consumer for one delivery. -/
inductive ConsumerAction where
  | ack
  | nackRequeue
  | nackDrop
deriving DecidableEq, Repr

/-- The `raw-logs` handler of the phase-3 `startConsumers`: parse the
payload, `await insertToMongo`, broadcast, then `ack`; any exception
(undecodable payload or failed insert) reaches the catch block, which
runs `nack(msg, false, true)`.  The result pairs the broker action with
whether the record was persisted. -/
def consumeRawLog (decoded : Option ShipLog) (persistOk : Bool) : ConsumerAction × Bool :=
  match decoded with
  | none => (.nackRequeue, false)
  | some _ => if persistOk then (.ack, true) else (.nackRequeue, false)

/-- JavaScript `parseInt` (decimal) of a query string: optional sign
then a leading digit run; `none` models `NaN`. -/
def digitsVal : Nat → List Char → Nat
  | acc, [] => acc
  | acc, c :: cs => if c.isDigit then digitsVal (acc * 10 + (c.toNat - 48)) cs else acc

/-- Value of a leading digit run, `none` when the first character is not
a digit. -/
def digitsPrefixVal : List Char → Option Nat
  | [] => none
  | c :: cs => if c.isDigit then some (digitsVal 0 (c :: cs)) else none

/-- JavaScript `parseInt(s)` for radix-10 input. -/
def jsParseInt (s : String) : Option Int :=
  match (strTrim s).data with
  | '-' :: rest => (digitsPrefixVal rest).map (fun n => -(n : Int))
  | '+' :: rest => (digitsPrefixVal rest).map (fun n => (n : Int))
  | l => (digitsPrefixVal l).map (fun n => (n : Int))

/-- Expression `parseInt(req.query.limit) || 100` of the `/api/logs` handler: an
absent parameter parses to `NaN`, and both `NaN` and `0` are falsy, so
each yields the default `100`.  No upper cap is applied. -/
def effLimit (limitParam : Option String) : Int :=
  match limitParam with
  | none => 100
  | some s =>
    match jsParseInt s with
    | none => 100
    | some v => if v = 0 then 100 else v

/-- A record as the `/api/logs` query sees it. -/
structure ApiLog where
  timestamp : Int
  service : String
  level : String
deriving DecidableEq, Repr

/-- JavaScript truthiness of an optional query-string value: the handler
adds a filter only `if (service)`, so an absent or empty value adds
none. -/
def truthyParam : Option String → Option String
  | none => none
  | some s => if s = "" then none else some s

/-- The Mongo filter document built by the handler: equality on
`service` and `level` when those query values are truthy. -/
def apiMatch (service level : Option String) (r : ApiLog) : Bool :=
  (match service with
   | none => true
   | some s => r.service == s) &&
  (match level with
   | none => true
   | some l => r.level == l)

/-- Insertion into a timestamp-descending list. -/
def insertDesc (r : ApiLog) : List ApiLog → List ApiLog
  | [] => [r]
  | x :: xs => if x.timestamp ≤ r.timestamp then r :: x :: xs else x :: insertDesc r xs

/-- The handler's `sort({ timestamp: -1 })`. -/
def sortDesc : List ApiLog → List ApiLog
  | [] => []
  | x :: xs => insertDesc x (sortDesc xs)

/-- The `/api/logs` handler of the phase-3 aggregator on a store
snapshot: build the filter from truthy `service` and `level`, sort by
timestamp descending, apply `.limit(limit)`, and reply
`{ logs, count: logs.length }`.  Negative parsed limits are not
exercised by any claim and are modelled as their `toNat`. -/
def getLogsHandler (store : List ApiLog) (limitParam service level : Option String) :
    List ApiLog × Nat :=
  let lim := effLimit limitParam
  let logs := (sortDesc (store.filter
    (apiMatch (truthyParam service) (truthyParam level)))).take lim.toNat
  (logs, logs.length)

/-- An SSE client as `/stream` registers it: the identifier and the
optional `service` query value. -/
structure SSEClient where
  id : Nat
  serviceFilter : Option String
deriving DecidableEq, Repr

/-- The skip test of `broadcastToSSE`:
`client.serviceFilter && data.service !== client.serviceFilter`.  A
missing filter (`undefined`) and the empty string are falsy; a missing
`service` field on the payload compares unequal to every string. -/
def sseSkip (filter dataService : Option String) : Bool :=
  match filter with
  | none => false
  | some f => if f = "" then false else !(dataService == some f)

/-- A broadcast reaches a client when the skip test fails. -/
def sseDeliver (filter dataService : Option String) : Bool := !(sseSkip filter dataService)

/-- The clients that `broadcastToSSE` writes a payload with service
field `dataService` to. -/
def broadcastToSSE (clients : List SSEClient) (dataService : Option String) : List SSEClient :=
  clients.filter (fun c => sseDeliver c.serviceFilter dataService)

/-- Modelled from the spec: the enrichment message consumed from the
`ai-enriched` queue.  Its producer (the AI layer) is not under `src/`;
per the spec's external-interface section the payload carries
`identifier, analysis, suggestions[], confidence` — and no `service`
field, which matches the fields `updateLogWithAI` reads. -/
structure EnrichedPayload where
  logId : Nat
  analysis : String
  suggestions : List String
  confidence : Int
deriving DecidableEq, Repr

/-- The `service` field of an enrichment payload as `broadcastToSSE`
reads it: the schema has none, so `data.service` is `undefined`. -/
def enrichedDataService (_ : EnrichedPayload) : Option String := none

/-- A sample record, as built for an error line in a plain file. -/
def sampleRec : ShipLog :=
  buildRecord "[ERROR] upstream timed out" "/var/log/app.log"
    "2025-09-17T10:30:00.000Z" "host-a" none

/-- A distinguishable oldest record for queue-policy statements. -/
def oldestRec : ShipLog :=
  ⟨"t0", "info", "m0", "svc", "h", "h", "/var/log/a.log"⟩

/-- A distinguishable newest record for queue-policy statements. -/
def newestRec : ShipLog :=
  ⟨"t1", "info", "m1", "svc", "h", "h", "/var/log/a.log"⟩

/-- A record that is already stale at every tick considered. -/
def staleRec : StoredLog := ⟨0, 0, false, none⟩

/-- A sample record for the filtered-fetch store. -/
def apiRecA : ApiLog := ⟨0, "app", "info"⟩

theorem scanBracket_mem {levels : List String} :
    ∀ {l : List Char} {lvl : String}, scanBracket levels l = some lvl → lvl ∈ levels := by
  intro l
  induction l with
  | nil => intro lvl h; simp [scanBracket] at h
  | cons c cs ih =>
    intro lvl h
    simp only [scanBracket] at h
    split at h
    · split at h
      · rename_i heq
        cases h
        exact List.mem_of_find?_eq_some heq
      · exact ih h
    · exact ih h

theorem scanColon_mem {levels : List String} :
    ∀ {l : List Char} {lvl : String}, scanColon levels l = some lvl → lvl ∈ levels := by
  intro l
  induction l with
  | nil => intro lvl h; simp [scanColon] at h
  | cons c cs ih =>
    intro lvl h
    simp only [scanColon] at h
    split at h
    · rename_i heq
      cases h
      exact List.mem_of_find?_eq_some heq
    · exact ih h

theorem scanLevelAny_mem {levels : List String} :
    ∀ {l : List Char} {lvl : String}, scanLevelAny levels l = some lvl → lvl ∈ levels := by
  intro l
  induction l with
  | nil => intro lvl h; simp [scanLevelAny] at h
  | cons c cs ih =>
    intro lvl h
    simp only [scanLevelAny] at h
    split at h
    · rename_i heq
      cases h
      exact List.mem_of_find?_eq_some heq
    · exact ih h

/-- C1: the aggregator's `raw-logs` binding.  The class variant binds
with the single-word pattern `logs.*` and the phase-3 variant binds
nothing, so a shipper routing key `logs.<service>.<ip>` (two segments
after the prefix) is not delivered to the queue — while the `logs.#`
binding the claim names would deliver it. -/
theorem c1_rawLogs_binding_misses_shipper_keys :
    deliveredToRawLogs rawLogsBindingKeys (routingKeyFor "nginx" "172-31-0-1") = false ∧
    deliveredToRawLogs rawLogsBindingKeysPhase3 (routingKeyFor "nginx" "172-31-0-1") = false ∧
    topicMatch "logs.#" (routingKeyFor "nginx" "172-31-0-1") = true := by
  decide

set_option maxRecDepth 8192 in
/-- C2: the phase-2 shipper keeps no pending-record queue: all 500
records produced during a disconnected interval are lost (`delivered`
stays empty even after reconnect), and the phase-1 `addToBuffer` is
unbounded with no drop-oldest policy: pushing onto a 10,000-record
buffer yields 10,001 records with the oldest still at the head. -/
theorem c2_disconnected_records_are_lost :
    (shipperRun ⟨true, []⟩
      ([ShipEvent.disconnect] ++
        List.replicate 500 (ShipEvent.produce sampleRec) ++
        [ShipEvent.reconnect])).delivered = [] ∧
    (addToBuffer (oldestRec :: List.replicate 9999 sampleRec) newestRec).length = 10001 ∧
    (addToBuffer (oldestRec :: List.replicate 9999 sampleRec) newestRec).head? =
      some oldestRec := by
  refine ⟨by decide, ?_, rfl⟩
  show ((oldestRec :: List.replicate 9999 sampleRec) ++ [newestRec]).length = 10001
  rw [List.length_append, List.length_cons, List.length_replicate]
  rfl

/-- C4 counterexample: service derivation looks only at the basename,
so `/var/log/nginx/error.log` yields `error` under both shippers, not
the `nginx` the claim states. -/
theorem c4_counterexample_nginx_path :
    extractServiceFromPath "/var/log/nginx/error.log" = "error" ∧
    deriveServiceFromPath "/var/log/nginx/error.log" = "error" ∧
    ("error" : String) ≠ "nginx" := by
  decide

/-- C4 as amended: the well-known mapping is applied to the basename
(last path segment, extension stripped) only — any path whose stripped
basename contains `nginx` maps to `nginx` — and the record for
`/var/log/nginx/error.log` therefore carries service `error`. -/
theorem c4_amended_basename_mapping :
    extractServiceFromPath "/var/log/nginx/error.log" = "error" ∧
    (∀ p : String, strContains (baseNameNoExt p) "nginx" = true →
      extractServiceFromPath p = "nginx") := by
  refine ⟨by decide, ?_⟩
  intro p h
  simp [extractServiceFromPath, h]

theorem c4_amended_basename_mapping_witness :
    strContains (baseNameNoExt "/var/log/nginx-access.log") "nginx" = true ∧
    extractServiceFromPath "/var/log/nginx-access.log" = "nginx" :=
  ⟨by decide, c4_amended_basename_mapping.2 "/var/log/nginx-access.log" (by decide)⟩

/-- C5 counterexample: on `[CRITICAL] disk failure` the claimed
composite extractor yields `critical`, but the phase-2 extractor yields
`info` (its level alternation has no `critical` and it has no secondary
heuristic) and the phase-1 word heuristic yields `error`. -/
theorem c5_counterexample_critical_line :
    levelPerSpecC5 "[CRITICAL] disk failure" = "critical" ∧
    parseLogLevel2 "[CRITICAL] disk failure" = "info" ∧
    extractLogLevel "[CRITICAL] disk failure" = "error" := by
  decide

/-- C5 as amended: the phase-2 extractor only ever returns a level from
`{error, warn, info, debug, trace, fatal}` (its three primary patterns,
default `info`, never `warning` or `critical`), and the phase-1
extractor only ever returns a level from `{error, warn, info, debug}`
(its word heuristic, default `info`). -/
theorem c5_amended_extractor_ranges :
    ∀ line : String,
      parseLogLevel2 line ∈ levelsPhase2 ∧
      extractLogLevel line ∈ (["error", "warn", "info", "debug"] : List String) := by
  intro line
  constructor
  · unfold parseLogLevel2 parseLogLevel2L
    split
    · rename_i heq; exact scanBracket_mem heq
    · split
      · rename_i heq; exact scanColon_mem heq
      · split
        · split
          · rename_i heq; exact scanLevelAny_mem heq
          · decide
        · decide
  · unfold extractLogLevel extractLogLevelL
    split
    · decide
    · split
      · decide
      · split
        · decide
        · split
          · decide
          · decide

/-- C9 counterexample: the record builder is not a pure function of
`(line, source)`: the timestamp is the wall clock read at each call, and
the ip is re-resolved by a fresh metadata lookup at each call, so two
builds of the same line from the same source can differ. -/
theorem c9_counterexample_build_not_pure :
    buildRecord "upstream timed out" "/var/log/app.log"
        "2025-09-17T10:30:00.000Z" "host-a" (some "1.2.3.4") ≠
      buildRecord "upstream timed out" "/var/log/app.log"
        "2025-09-17T10:30:05.000Z" "host-a" (some "1.2.3.4") ∧
    (buildRecord "x" "/var/log/app.log" "t" "host-a" (some "1.2.3.4")).ip ≠
      (buildRecord "x" "/var/log/app.log" "t" "host-a" none).ip := by
  decide

/-- C9 as amended: level, service, message, host and source are pure
functions of `(line, source, host)` — repeated builds agree on them —
while the timestamp is sampled at each call and the ip is re-resolved
(2-second-guarded metadata fetch, hostname fallback) on every build,
with no caching. -/
theorem c9_amended_pure_except_time_and_ip :
    ∀ (line filePath n1 n2 h : String) (r1 r2 : Option String),
      (buildRecord line filePath n1 h r1).level = (buildRecord line filePath n2 h r2).level ∧
      (buildRecord line filePath n1 h r1).service =
        (buildRecord line filePath n2 h r2).service ∧
      (buildRecord line filePath n1 h r1).message =
        (buildRecord line filePath n2 h r2).message ∧
      (buildRecord line filePath n1 h r1).host = (buildRecord line filePath n2 h r2).host ∧
      (buildRecord line filePath n1 h r1).source = (buildRecord line filePath n2 h r2).source :=
  fun _ _ _ _ _ _ _ => ⟨rfl, rfl, rfl, rfl, rfl⟩

/-- C10: a subscriber registered with a non-empty service filter never
receives an enrichment broadcast: the payload carries no `service`
field, so the skip test `client.serviceFilter && data.service !==
client.serviceFilter` fires for every such client. -/
theorem c10_filtered_subscriber_skips_enrichment :
    ∀ (clients : List SSEClient) (e : EnrichedPayload) (c : SSEClient) (f : String),
      c.serviceFilter = some f → f ≠ "" →
      c ∉ broadcastToSSE clients (enrichedDataService e) := by
  intro clients e c f hf hne hmem
  have hdel := (List.mem_filter.mp hmem).2
  rw [hf] at hdel
  simp [sseDeliver, sseSkip, hne, enrichedDataService] at hdel

theorem c10_filtered_subscriber_skips_enrichment_witness :
    (⟨1, some "mysql"⟩ : SSEClient) ∉
      broadcastToSSE [⟨1, some "mysql"⟩] (enrichedDataService ⟨7, "analysis", [], 0⟩) :=
  c10_filtered_subscriber_skips_enrichment [⟨1, some "mysql"⟩] ⟨7, "analysis", [], 0⟩
    ⟨1, some "mysql"⟩ "mysql" rfl (by decide)

set_option maxRecDepth 4096 in
/-- C3 counterexample: an unsynchronized record already older than
`2 × archiveIntervalMinutes` at the first tick considered is selected by
no tick at all — the query only looks back one window — so it is still
unsynchronized after 144 further ticks (one day of cadence). -/
theorem c3_counterexample_stale_record_never_archived :
    staleRec.synced = false ∧
    staleRec.timestamp + 2 * archiveIntervalMs ≤ 1200000 ∧
    archiveRun 1200000 archiveIntervalMs [staleRec] 144 = [staleRec] := by
  refine ⟨rfl, by decide, by decide⟩

/-- C3 as amended: the archival `$match` keeps only records with
`synced = false` and `timestamp` strictly inside the last window, so a
record at least one window older than `now` is never in the batch at
`now`, and a record at least one window older than the first tick stays
untouched over every later tick. -/
theorem c3_amended_window_excludes_old :
    (∀ (now : Int) (store : List StoredLog) (r : StoredLog),
       r.timestamp + archiveWindowMs ≤ now → r ∉ archiveBatch now store) ∧
    (∀ (r : StoredLog) (start intervalMs : Int) (k : Nat),
       0 ≤ intervalMs → r.timestamp + archiveWindowMs ≤ start →
       archiveRun start intervalMs [r] k = [r]) := by
  constructor
  · intro now store r hold hmem
    have hmem' : r ∈ store.filter (selectedForArchive now) :=
      List.take_subset _ _ hmem
    have hsel := (List.mem_filter.mp hmem').2
    simp only [selectedForArchive, Bool.and_eq_true, Bool.not_eq_true',
      decide_eq_true_eq] at hsel
    omega
  · intro r start intervalMs k h0 hold
    induction k with
    | zero => rfl
    | succ n ih =>
      show archiveTick (start + intervalMs * n) (archiveRun start intervalMs [r] n) = [r]
      rw [ih]
      have hmn : (0 : Int) ≤ intervalMs * (n : Int) :=
        mul_nonneg h0 (Int.ofNat_nonneg n)
      have hnot : selectedForArchive (start + intervalMs * n) r = false := by
        simp only [selectedForArchive, Bool.and_eq_false_iff, Bool.not_eq_false',
          decide_eq_false_iff_not, not_lt]
        right
        linarith
      simp [archiveTick, archiveBatch, List.filter_cons, hnot]

theorem c3_amended_window_excludes_old_witness :
    staleRec ∉ archiveBatch 600000 [staleRec] ∧
    archiveRun 600000 1 [staleRec] 3 = [staleRec] :=
  ⟨c3_amended_window_excludes_old.1 600000 [staleRec] staleRec (by decide),
   c3_amended_window_excludes_old.2 staleRec 600000 1 3 (by decide) (by decide)⟩

/-- C6: the `raw-logs` consumer of the phase-3 `startConsumers` acks a
delivery only when the record was persisted, and any handler failure
(undecodable payload or failed insert) yields `nack(msg, false, true)`,
a negative acknowledgement with requeue. -/
theorem c6_ack_only_after_persist :
    ∀ (decoded : Option ShipLog) (persistOk : Bool),
      ((consumeRawLog decoded persistOk).1 = ConsumerAction.ack →
        persistOk = true ∧ (consumeRawLog decoded persistOk).2 = true) ∧
      ((consumeRawLog decoded persistOk).2 = false →
        (consumeRawLog decoded persistOk).1 = ConsumerAction.nackRequeue) := by
  intro d p
  cases d <;> cases p <;> simp [consumeRawLog]

theorem c6_ack_only_after_persist_witness :
    (true = true ∧ (consumeRawLog (some sampleRec) true).2 = true) ∧
    (consumeRawLog (some sampleRec) false).1 = ConsumerAction.nackRequeue :=
  ⟨(c6_ack_only_after_persist (some sampleRec) true).1 rfl,
   (c6_ack_only_after_persist (some sampleRec) false).2 rfl⟩

theorem find?_map_synced {f : AggRecord → AggRecord} (hid : ∀ r, (f r).id = r.id)
    (hs : ∀ r, r.synced = true → (f r).synced = true) (i : Nat) :
    ∀ l : List AggRecord,
      (l.find? (fun r => r.id == i)).map (fun r => r.synced) = some true →
      ((l.map f).find? (fun r => r.id == i)).map (fun r => r.synced) = some true := by
  intro l
  induction l with
  | nil => intro h; simp at h
  | cons x xs ih =>
    intro h
    by_cases hx : (x.id == i) = true
    · rw [@List.find?_cons_of_pos _ (fun r => r.id == i) x xs hx] at h
      simp only [Option.map_some'] at h
      have hfx : ((f x).id == i) = true := by rw [hid x]; exact hx
      rw [List.map_cons, @List.find?_cons_of_pos _ (fun r => r.id == i) (f x) (xs.map f) hfx]
      simp only [Option.map_some']
      rw [hs x (by simpa using h)]
    · rw [@List.find?_cons_of_neg _ (fun r => r.id == i) x xs hx] at h
      have hfx : ¬((f x).id == i) = true := by rw [hid x]; exact hx
      rw [List.map_cons, @List.find?_cons_of_neg _ (fun r => r.id == i) (f x) (xs.map f) hfx]
      exact ih h

theorem syncedOf_applyAggOp {s : AggStore} {i : Nat} (op : AggOp)
    (h : syncedOf s i = some true) : syncedOf (applyAggOp s op) i = some true := by
  cases op with
  | insert payload =>
    show ((s.recs ++ _).find? (fun r => r.id == i)).map (fun r => r.synced) = some true
    rw [List.find?_append]
    rcases Option.map_eq_some'.mp h with ⟨r, hr, hsync⟩
    rw [hr]
    simp [Option.or, hsync]
  | enrich logId analysis suggestions confidence =>
    refine find?_map_synced ?_ ?_ i s.recs h
    · intro r; by_cases hr : r.id = logId <;> simp [hr]
    · intro r hsy; by_cases hr : r.id = logId <;> simp [hr, hsy]
  | mark ids now =>
    refine find?_map_synced ?_ ?_ i s.recs h
    · intro r; by_cases hr : r.id ∈ ids <;> simp [hr]
    · intro r hsy; by_cases hr : r.id ∈ ids <;> simp [hr, hsy]

/-- C7: `synced` is monotone under every store-writing aggregator
operation: inserts create fresh records with `synced = false` and leave
existing ones alone, the enrichment update writes only enrichment
fields, and the archival mark only raises `synced` to `true` — so once a
record's `synced` is `true` it stays `true` through any further
operation sequence. -/
theorem c7_synced_monotone :
    ∀ (ops : List AggOp) (s : AggStore) (i : Nat),
      syncedOf s i = some true → syncedOf (ops.foldl applyAggOp s) i = some true := by
  intro ops
  induction ops with
  | nil => intro s i h; exact h
  | cons op rest ih =>
    intro s i h
    exact ih (applyAggOp s op) i (syncedOf_applyAggOp op h)

theorem c7_synced_monotone_witness :
    syncedOf
      ([AggOp.insert "x", AggOp.enrich 0 "a" "b" 2, AggOp.mark [0] 9].foldl applyAggOp
        ⟨1, [⟨0, true, some 1, none, none, none, "m"⟩]⟩) 0 = some true :=
  c7_synced_monotone [AggOp.insert "x", AggOp.enrich 0 "a" "b" 2, AggOp.mark [0] 9]
    ⟨1, [⟨0, true, some 1, none, none, none, "m"⟩]⟩ 0 (by decide)

theorem insertDesc_length (r : ApiLog) :
    ∀ l : List ApiLog, (insertDesc r l).length = l.length + 1 := by
  intro l
  induction l with
  | nil => rfl
  | cons x xs ih =>
    simp only [insertDesc]
    split
    · simp
    · simp only [List.length_cons, ih]

theorem sortDesc_length : ∀ l : List ApiLog, (sortDesc l).length = l.length := by
  intro l
  induction l with
  | nil => rfl
  | cons x xs ih => simp [sortDesc, insertDesc_length, ih]

theorem filter_matchAll (l : List ApiLog) : l.filter (apiMatch none none) = l := by
  induction l with
  | nil => rfl
  | cons x xs ih => simp [List.filter_cons, apiMatch, ih]

set_option maxRecDepth 16384 in
/-- C8 counterexample: the handler applies no 1000 cap — with
`limit=1001` and 1001 stored records it returns 1001 records, more than
`min(limit, 1000)`. -/
theorem c8_counterexample_no_thousand_cap :
    (getLogsHandler (List.replicate 1001 apiRecA) (some "1001") none none).2 = 1001 ∧
    ¬(1001 ≤ min 1001 1000) := by
  constructor
  · show ((sortDesc ((List.replicate 1001 apiRecA).filter
      (apiMatch (truthyParam none) (truthyParam none)))).take
        (effLimit (some "1001")).toNat).length = 1001
    have he : (effLimit (some "1001")).toNat = 1001 := by decide
    rw [show truthyParam (none : Option String) = none from rfl, filter_matchAll, he,
      List.length_take, sortDesc_length, List.length_replicate]
    simp
  · decide

/-- C8 as amended: the reply's `count` equals the number of returned
records, that number is at most the parsed limit (no 1000 cap; a
missing, unparsable or zero limit yields the default 100), and an
unknown `service` filter yields an empty list rather than an error. -/
theorem c8_amended_handler_contract :
    ∀ (store : List ApiLog) (limitParam service level : Option String),
      (getLogsHandler store limitParam service level).2 =
        (getLogsHandler store limitParam service level).1.length ∧
      (getLogsHandler store limitParam service level).1.length ≤
        (effLimit limitParam).toNat ∧
      (limitParam = none → (getLogsHandler store limitParam service level).1.length ≤ 100) ∧
      (∀ s, truthyParam service = some s → (∀ r ∈ store, r.service ≠ s) →
        (getLogsHandler store limitParam service level).1 = []) := by
  intro store limitParam service level
  refine ⟨rfl, List.length_take_le _ _, ?_, ?_⟩
  · intro hnone
    subst hnone
    exact List.length_take_le _ _
  · intro s hs hnone
    have hf : store.filter (apiMatch (truthyParam service) (truthyParam level)) = [] := by
      rw [List.filter_eq_nil_iff]
      intro a ha
      rw [hs]
      simp [apiMatch, hnone a ha]
    show ((sortDesc (store.filter
      (apiMatch (truthyParam service) (truthyParam level)))).take
        (effLimit limitParam).toNat) = []
    rw [hf]
    simp [sortDesc]

theorem c8_amended_handler_contract_witness :
    (getLogsHandler [⟨1, "app", "info"⟩] none (some "zzz") none).1 = [] :=
  (c8_amended_handler_contract [⟨1, "app", "info"⟩] none (some "zzz") none).2.2.2 "zzz"
    (by decide) (by decide)

end OpSentra
